import Mathlib

/-!
Verification of `util/k8s.go` from github.com/mateo1647/kk.

The Go code is embedded shallowly: Go strings become Lean `String`s
(the quote/length tests of `TrimQuoteAndSpace` act on bytes in Go, but
the ASCII quote bytes 0x22/0x27 never occur inside a multi-byte UTF-8
character, so the character-level model agrees with the byte-level code
on every input), Go slices become `List`s, a Go map in iteration order
becomes an association list, and the two external effects — the
kubeconfig namespace lookup and the execution of an external command —
become explicit arguments describing the outside world's answer.
-/

namespace KK

/-- Fields of `options.SearchOptions` as read by `util/k8s.go`
(`opt.Namespace`, `opt.AllNamespaces`, `opt.Selector`, `opt.FieldSelector`);
the struct itself is declared in `internal/options`, outside the sources,
and the spec's data model lists exactly these fields. -/
structure SearchOptions where
  Namespace : String
  AllNamespaces : Bool
  Selector : String
  FieldSelector : String

/-- The fields of `metav1.ListOptions` that `SetOptions` populates. -/
structure ListOptions where
  LabelSelector : String
  FieldSelector : String
deriving DecidableEq

/-- The ASCII double-quote character, byte 0x22 (Go literal `'"'`). -/
def dquote : Char := Char.ofNat 34

/-- The ASCII single-quote character, byte 0x27 (Go literal `'\''`). -/
def squote : Char := Char.ofNat 39

/-- Embedding of `SetOptions`. The ambient kubeconfig lookup
`client.ClientConfig().Namespace()` is external; its outcome is passed in
as `kubeNs` (`Except.error` when the lookup fails, in which case the code
only logs at debug level and keeps the initial `"default"`). -/
def SetOptions (kubeNs : Except String String) (opt : SearchOptions) :
    String × ListOptions :=
  let ns : String :=
    if opt.AllNamespaces then ""
    else if opt.Namespace.length > 0 then opt.Namespace
    else
      match kubeNs with
      | Except.error _ => "default"
      | Except.ok n => n
  (ns, { LabelSelector := opt.Selector, FieldSelector := opt.FieldSelector })

/-- The list call a lister issues against the cluster client:
`Nodes().List(o)` takes no namespace (cluster-scoped), every other kind's
`List` is invoked on a namespaced resource interface. -/
inductive ClusterCall where
  | listNodes (o : ListOptions)
  | listNamespaced (kind : String) (ns : String) (o : ListOptions)
deriving DecidableEq

/-- Embedding of `NodeList`: `_, o := SetOptions(opt)` discards the
resolved namespace and the call `clientset.CoreV1().Nodes().List(*o)`
passes only the list options. We model the issued call. -/
def NodeList (kubeNs : Except String String) (opt : SearchOptions) : ClusterCall :=
  let p := SetOptions kubeNs opt
  ClusterCall.listNodes p.2

/-- Embedding of `PodList`'s issued call, for contrast with `NodeList`:
`clientset.CoreV1().Pods(ns).List(*o)` passes the resolved namespace. -/
def PodList (kubeNs : Except String String) (opt : SearchOptions) : ClusterCall :=
  let p := SetOptions kubeNs opt
  ClusterCall.listNamespaced "Pod" p.1 p.2

/-- Go's `unicode.IsSpace`: true exactly on the Unicode White_Space code
points — tab through carriage return (U+0009–U+000D), space, next line
(U+0085), no-break space (U+00A0), ogham space mark (U+1680), the en-quad
through hair-space block (U+2000–U+200A), line and paragraph separator
(U+2028, U+2029), narrow no-break space (U+202F), medium mathematical
space (U+205F), and ideographic space (U+3000). -/
def goIsSpace (c : Char) : Bool :=
  (Char.ofNat 9 ≤ c && c ≤ Char.ofNat 13) || c = Char.ofNat 32 ||
    c = Char.ofNat 133 || c = Char.ofNat 160 || c = Char.ofNat 0x1680 ||
    (Char.ofNat 0x2000 ≤ c && c ≤ Char.ofNat 0x200A) ||
    c = Char.ofNat 0x2028 || c = Char.ofNat 0x2029 ||
    c = Char.ofNat 0x202F || c = Char.ofNat 0x205F || c = Char.ofNat 0x3000

/-- Embedding of Go's `strings.TrimSpace`: drop leading and trailing
whitespace. -/
def goTrimSpace (input : String) : String :=
  String.mk (((input.data.dropWhile goIsSpace).reverse.dropWhile goIsSpace).reverse)

/-- Embedding of `TrimQuoteAndSpace`. `input[0]`/`input[len-1]` are the
first/last characters and `input[1:len-1]` drops exactly those two. -/
def TrimQuoteAndSpace (input : String) : String :=
  if 2 ≤ input.length then
    if input.front = dquote ∧ input.back = dquote then
      (input.drop 1).dropRight 1
    else if input.front = squote ∧ input.back = squote then
      (input.drop 1).dropRight 1
    else goTrimSpace input
  else goTrimSpace input

/-- Embedding of Go's `strings.Join`: elements concatenated with `sep`
between consecutive elements, `""` on the empty list. -/
def goJoin (sep : String) : List String → String
  | [] => ""
  | [a] => a
  | a :: b :: rest => a ++ sep ++ goJoin sep (b :: rest)

/-- Embedding of `KeysString`: the map is given as an association list in
Go's (unspecified) iteration order; each entry is rendered
`fmt.Sprintf("%s=%s", k, v)` and the renderings are joined with `","`. -/
def KeysString (m : List (String × String)) : String :=
  goJoin "," (m.map fun kv => kv.1 ++ "=" ++ kv.2)

/-- Embedding of Go's `strings.Split(s, "\n")` at the character level:
splits on every newline; the empty input yields `[[]]`. -/
def goSplitNl : List Char → List (List Char)
  | [] => [[]]
  | c :: cs =>
    if c = '\n' then [] :: goSplitNl cs
    else
      match goSplitNl cs with
      | [] => [[c]]
      | s :: ss => (c :: s) :: ss

/-- What the external process returned to `cmd.CombinedOutput()`: the
captured combined stdout+stderr bytes, and the error value (present when
the binary is missing or exits non-zero). -/
structure ExecResult where
  combinedOutput : String
  err : Option String

/-- The observable behaviour of one `RunCommand` call: the lines it
prints to standard output itself, and the `[]string` it returns. -/
structure RunCommandEffect where
  printedStdout : List String
  returned : List String
deriving DecidableEq

/-- Embedding of `RunCommand`: on error a diagnostic is printed to
standard output via `fmt.Printf` (Go renders the `[]string` argument as
the elements space-joined inside brackets); either way the combined
output is split on newline and returned, and the signature carries no
error value. -/
def RunCommand (name : String) (args : List String) (res : ExecResult) :
    RunCommandEffect :=
  let cmdOut := res.combinedOutput
  let printed : List String :=
    match res.err with
    | some _ => ["error running command: " ++ name ++ " [" ++ goJoin " " args ++ "]"]
    | none => []
  { printedStdout := printed
    returned := (goSplitNl cmdOut.data).map fun l => String.mk l }

/-- Embedding of `K8sCommandArgs`: appends `--namespace=`, `--context=`,
`--selector=` flags to `args`, each only when its input is non-empty
(`fmt.Sprintf("--namespace=%v", s)` is string concatenation for a
string argument). -/
def K8sCommandArgs (args : List String) (ns context labels : String) :
    List String :=
  let args := if ns ≠ "" then args ++ ["--namespace=" ++ ns] else args
  let args := if context ≠ "" then args ++ ["--context=" ++ context] else args
  let args := if labels ≠ "" then args ++ ["--selector=" ++ labels] else args
  args

/-- A non-empty string has positive length. -/
lemma length_pos_of_ne_empty {s : String} (h : s ≠ "") : 0 < s.length := by
  cases s with
  | mk data =>
    cases data with
    | nil => exact absurd rfl h
    | cons c cs => simp [String.length]

/-- `goSplitNl` never returns the empty list. -/
lemma goSplitNl_ne_nil (l : List Char) : goSplitNl l ≠ [] := by
  induction l with
  | nil => simp [goSplitNl]
  | cons c cs ih =>
    simp only [goSplitNl]
    split
    · simp
    · cases h : goSplitNl cs with
      | nil => simp
      | cons s ss => simp

/-- Every element of a list is an infix of its `goJoin`. -/
lemma mem_infix_goJoin (sep : String) (s : String) :
    ∀ l : List String, s ∈ l → s.data <:+: (goJoin sep l).data := by
  intro l
  induction l with
  | nil => intro h; exact absurd h (List.not_mem_nil s)
  | cons a rest ih =>
    intro hmem
    cases rest with
    | nil =>
      have : s = a := by simpa using hmem
      subst this
      exact List.infix_refl s.data
    | cons b rest' =>
      rcases List.mem_cons.mp hmem with h | h
      · subst h
        refine ⟨[], (sep ++ goJoin sep (b :: rest')).data, ?_⟩
        simp [goJoin, String.data_append, List.append_assoc]
      · have hin := ih h
        have : (goJoin sep (b :: rest')).data <:+:
            (goJoin sep (a :: b :: rest')).data := by
          refine ⟨(a ++ sep).data, [], ?_⟩
          simp [goJoin, String.data_append, List.append_assoc]
        exact hin.trans this

/-- Claim C1: whenever `AllNamespaces` is set, `SetOptions` resolves the
namespace to the empty string, whatever the explicit `Namespace` field
and the kubeconfig lookup outcome are. -/
theorem setOptions_allNamespaces_empty (kubeNs : Except String String)
    (opt : SearchOptions) (h : opt.AllNamespaces = true) :
    (SetOptions kubeNs opt).1 = "" := by
  simp [SetOptions, h]

theorem setOptions_allNamespaces_empty_witness :
    (SetOptions (Except.ok "kube-ns") ⟨"explicit-ns", true, "", ""⟩).1 = "" :=
  setOptions_allNamespaces_empty (Except.ok "kube-ns")
    ⟨"explicit-ns", true, "", ""⟩ rfl

/-- Claim C2: with `AllNamespaces` false and a non-empty explicit
`Namespace`, `SetOptions` resolves to exactly that namespace. -/
theorem setOptions_explicit_namespace (kubeNs : Except String String)
    (opt : SearchOptions) (h1 : opt.AllNamespaces = false)
    (h2 : opt.Namespace ≠ "") :
    (SetOptions kubeNs opt).1 = opt.Namespace := by
  have hpos : 0 < opt.Namespace.length := length_pos_of_ne_empty h2
  simp [SetOptions, h1, hpos]

theorem setOptions_explicit_namespace_witness :
    (SetOptions (Except.ok "kube-ns") ⟨"ns1", false, "", ""⟩).1 = "ns1" :=
  setOptions_explicit_namespace (Except.ok "kube-ns")
    ⟨"ns1", false, "", ""⟩ rfl (by decide)

/-- Claim C3: with `AllNamespaces` false and an empty `Namespace`, the
resolved namespace is the kubeconfig's answer when the lookup succeeds
and the literal `"default"` when it fails; `SetOptions` returns no error
in either case (its signature has no error component). -/
theorem setOptions_fallback (opt : SearchOptions) (n e : String)
    (h1 : opt.AllNamespaces = false) (h2 : opt.Namespace = "") :
    (SetOptions (Except.ok n) opt).1 = n ∧
      (SetOptions (Except.error e) opt).1 = "default" := by
  constructor <;> simp [SetOptions, h1, h2]

theorem setOptions_fallback_witness :
    (SetOptions (Except.ok "kube-ns") ⟨"", false, "", ""⟩).1 = "kube-ns" ∧
      (SetOptions (Except.error "boom") ⟨"", false, "", ""⟩).1 = "default" :=
  setOptions_fallback ⟨"", false, "", ""⟩ "kube-ns" "boom" rfl rfl

/-- Claim C4: `K8sCommandArgs` returns the caller's arguments followed by
the namespace, context and selector flags in that fixed order, each flag
present exactly when its input is non-empty; and the spec's worked
example evaluates as stated. -/
theorem k8sCommandArgs_order (args : List String) (ns context labels : String) :
    K8sCommandArgs args ns context labels =
      args ++ (if ns = "" then [] else ["--namespace=" ++ ns])
           ++ (if context = "" then [] else ["--context=" ++ context])
           ++ (if labels = "" then [] else ["--selector=" ++ labels]) ∧
    K8sCommandArgs ["get", "pods"] "ns1" "ctx1" "app=x" =
      ["get", "pods", "--namespace=ns1", "--context=ctx1", "--selector=app=x"] := by
  constructor
  · by_cases h1 : ns = "" <;> by_cases h2 : context = "" <;>
      by_cases h3 : labels = "" <;> simp [K8sCommandArgs, h1, h2, h3]
  · decide

/-- Claim C10: `K8sCommandArgs` keeps the caller's arguments unchanged as
a prefix, and appends exactly one element per non-empty input among
namespace, context and labels. -/
theorem k8sCommandArgs_frame (args : List String) (ns context labels : String) :
    (K8sCommandArgs args ns context labels).take args.length = args ∧
    (K8sCommandArgs args ns context labels).length =
      args.length + ((if ns = "" then 0 else 1) + (if context = "" then 0 else 1) +
        (if labels = "" then 0 else 1)) := by
  by_cases h1 : ns = "" <;> by_cases h2 : context = "" <;>
    by_cases h3 : labels = "" <;>
    constructor <;>
    simp [K8sCommandArgs, h1, h2, h3, List.take_append, Nat.add_assoc]

/-- Claim C5: for input of length at least two whose first and last
characters are both double quotes or both single quotes,
`TrimQuoteAndSpace` removes exactly that outer pair; every other input is
only whitespace-trimmed, in particular any single-character input; and
the spec's worked examples evaluate as stated. -/
theorem trimQuoteAndSpace_spec :
    (∀ input : String, 2 ≤ input.length →
      ((input.front = dquote ∧ input.back = dquote) ∨
       (input.front = squote ∧ input.back = squote)) →
      TrimQuoteAndSpace input = (input.drop 1).dropRight 1) ∧
    (∀ input : String,
      ¬ (2 ≤ input.length ∧
        ((input.front = dquote ∧ input.back = dquote) ∨
         (input.front = squote ∧ input.back = squote))) →
      TrimQuoteAndSpace input = goTrimSpace input) ∧
    (∀ input : String, input.length = 1 →
      TrimQuoteAndSpace input = goTrimSpace input) ∧
    TrimQuoteAndSpace "'abc'" = "abc" ∧
    TrimQuoteAndSpace "\"abc\"" = "abc" ∧
    TrimQuoteAndSpace "  abc  " = "abc" := by
  refine ⟨?_, ?_, ?_, by decide, by decide, by decide⟩
  · intro input hlen hq
    rcases hq with ⟨h1, h2⟩ | ⟨h1, h2⟩ <;> simp [TrimQuoteAndSpace, hlen, h1, h2]
  · intro input h
    by_cases hlen : 2 ≤ input.length
    · have hd : ¬ (input.front = dquote ∧ input.back = dquote) := fun hc =>
        h ⟨hlen, Or.inl hc⟩
      have hs : ¬ (input.front = squote ∧ input.back = squote) := fun hc =>
        h ⟨hlen, Or.inr hc⟩
      simp [TrimQuoteAndSpace, hlen, hd, hs]
    · simp [TrimQuoteAndSpace, hlen]
  · intro input h
    have : ¬ 2 ≤ input.length := by omega
    simp [TrimQuoteAndSpace, this]

theorem trimQuoteAndSpace_witness :
    TrimQuoteAndSpace "'xy'" = (("'xy'" : String).drop 1).dropRight 1 ∧
    TrimQuoteAndSpace "a" = goTrimSpace "a" :=
  ⟨trimQuoteAndSpace_spec.1 "'xy'" (by decide) (Or.inr ⟨by decide, by decide⟩),
   trimQuoteAndSpace_spec.2.2.1 "a" (by decide)⟩

/-- Claim C6: `RunCommand` returns the newline-split combined output
whether or not the command failed — the returned value is identical for
a failing and a succeeding run with the same captured output, so it
cannot distinguish the two — and failure is signalled only by a
diagnostic line printed to standard output (present exactly on
failure). -/
theorem runCommand_failure_behavior (name : String) (args : List String)
    (out e : String) :
    (RunCommand name args ⟨out, some e⟩).returned =
        (RunCommand name args ⟨out, none⟩).returned ∧
      (RunCommand name args ⟨out, some e⟩).returned =
        (goSplitNl out.data).map String.mk ∧
      (RunCommand name args ⟨out, some e⟩).printedStdout ≠ [] ∧
      (RunCommand name args ⟨out, none⟩).printedStdout = [] := by
  refine ⟨rfl, rfl, ?_, rfl⟩
  simp [RunCommand]

/-- Claim C9: `RunCommand` never returns the empty list: splitting on
newline always yields at least one element, and the empty captured
output yields exactly the one-element list containing the empty
string. -/
theorem runCommand_nonempty (name : String) (args : List String)
    (res : ExecResult) :
    (RunCommand name args res).returned ≠ [] ∧
      (RunCommand name args ⟨"", res.err⟩).returned = [""] := by
  constructor
  · simp [RunCommand, goSplitNl_ne_nil]
  · rfl

/-- Claim C7: `KeysString` renders the singleton map with entry
`a ↦ 1` as exactly `"a=1"`, and for any map every entry's `key=value`
rendering occurs in the comma-joined output (the order of the pairs is
the map's iteration order and is not constrained). -/
theorem keysString_spec :
    KeysString [("a", "1")] = "a=1" ∧
    KeysString [("a", "1"), ("b", "2")] = "a=1,b=2" ∧
    (∀ (m : List (String × String)) (kv : String × String), kv ∈ m →
      (kv.1 ++ "=" ++ kv.2).data <:+: (KeysString m).data) := by
  refine ⟨by decide, by decide, ?_⟩
  intro m kv hmem
  exact mem_infix_goJoin "," (kv.1 ++ "=" ++ kv.2) _
    (List.mem_map_of_mem (fun p => p.1 ++ "=" ++ p.2) hmem)

theorem keysString_witness :
    (("b" ++ "=" ++ "2" : String)).data <:+:
      (KeysString [("a", "1"), ("b", "2")]).data :=
  keysString_spec.2.2 [("a", "1"), ("b", "2")] ("b", "2") (by simp)

/-- Claim C8: `NodeList` ignores the resolved namespace: it issues a
cluster-scoped `listNodes` call carrying only the list options, so two
option sets agreeing on label and field selectors — whatever their
`Namespace` and `AllNamespaces` fields and whatever the kubeconfig
lookup returns — produce the same call. -/
theorem nodeList_ignores_namespace (kubeNs kubeNs' : Except String String)
    (opt1 opt2 : SearchOptions) (hs : opt1.Selector = opt2.Selector)
    (hf : opt1.FieldSelector = opt2.FieldSelector) :
    NodeList kubeNs opt1 = NodeList kubeNs' opt2 ∧
      NodeList kubeNs opt1 =
        ClusterCall.listNodes ⟨opt1.Selector, opt1.FieldSelector⟩ := by
  constructor
  · simp [NodeList, SetOptions, hs, hf]
  · rfl

theorem nodeList_ignores_namespace_witness :
    NodeList (Except.ok "kube-ns") ⟨"ns1", true, "app=x", "f=1"⟩ =
      NodeList (Except.error "boom") ⟨"ns2", false, "app=x", "f=1"⟩ :=
  (nodeList_ignores_namespace (Except.ok "kube-ns") (Except.error "boom")
    ⟨"ns1", true, "app=x", "f=1"⟩ ⟨"ns2", false, "app=x", "f=1"⟩ rfl rfl).1

end KK
